import Mathlib

/-!
# Verification of the snake-game simulation core (src/main.rs)

Shallow embedding of the tick-driven snake simulation: positions and
directions, the movement engine (`snake_movement`), eating
(`snake_eating`), growth (`snake_growth`), the food spawner
(`food_spawner`), the game-over reset (`game_over`) and the per-cycle
update composing them in the documented order
(movement → eating → growth → food spawn → reset).

Machine integers: the Rust code uses `i32` coordinates and `u32` arena
bounds; coordinates stay tiny (one unit per tick from (3,3)), so they are
embedded as unbounded `Int` with the boundary comparison written out
explicitly.  Entities are embedded as natural-number identifiers; the
per-entity `Position` component of a segment is stored alongside its
identifier in the segment-order list, preserving the list's order.
Event queues carry unit values, so a queue's observable content is the
number of events sent in the cycle; consumers that only check presence
receive that count.
-/

/-- Grid cell coordinate, from `struct Position { x: i32, y: i32 }`. -/
structure Position where
  x : Int
  y : Int
deriving DecidableEq, Repr

/-- Movement direction, from `enum Direction { Left, Up, Right, Down }`. -/
inductive Direction where
  | Left
  | Up
  | Right
  | Down
deriving DecidableEq, Repr

/-- From `Direction::opposite`. -/
def Direction.opposite : Direction → Direction
  | .Left => .Right
  | .Right => .Left
  | .Up => .Down
  | .Down => .Up

/-- The head entity's direction state, from `struct SnakeHead`. -/
structure SnakeHead where
  direction : Direction
  try_direction : Direction
deriving DecidableEq, Repr

/-- `ARENA_WIDTH` (u32 = 20), as an `Int` for comparison with coordinates. -/
def ARENA_WIDTH : Int := 20

/-- `ARENA_HEIGHT` (u32 = 20), as an `Int` for comparison with coordinates. -/
def ARENA_HEIGHT : Int := 20

/-- Unit displacement of the head, from the `match &head.direction` block in
`snake_movement` (lines 191-204). -/
def applyDirection (d : Direction) (p : Position) : Position :=
  match d with
  | .Left => { p with x := p.x - 1 }
  | .Right => { p with x := p.x + 1 }
  | .Up => { p with y := p.y + 1 }
  | .Down => { p with y := p.y - 1 }

/-- Horizontal component of a direction's unit displacement (spec wording:
Left x-1, Right x+1). -/
def dirDX : Direction → Int
  | .Left => -1
  | .Right => 1
  | .Up => 0
  | .Down => 0

/-- Vertical component of a direction's unit displacement (spec wording:
Up y+1, Down y-1). -/
def dirDY : Direction → Int
  | .Left => 0
  | .Right => 0
  | .Up => 1
  | .Down => -1

/-- The direction committed on an elapsed tick, from lines 186-189 of
`snake_movement`: the intended direction unless it is the opposite of the
current one. -/
def committedDirection (h : SnakeHead) : Direction :=
  if h.try_direction ≠ h.direction.opposite then h.try_direction else h.direction

/-- Boundary test of `snake_movement` (lines 205-211): `x < 0 || y < 0 ||
x as u32 >= ARENA_WIDTH || y as u32 >= ARENA_HEIGHT` (the casts are guarded
by the sign checks thanks to short-circuit evaluation). -/
def outsideArena (p : Position) : Bool :=
  decide (p.x < 0) || decide (p.y < 0) ||
    decide (ARENA_WIDTH ≤ p.x) || decide (ARENA_HEIGHT ≤ p.y)

/-- Result of one invocation of `snake_movement` for the (single) head:
the updated head fields and positions, plus which of the two
`game_over_events.send(GameOverEvent)` statements executed. -/
structure MoveResult where
  head : SnakeHead
  headPos : Position
  segments : List (Nat × Position)
  lastTail : Option Position
  boundaryHit : Bool
  selfHit : Bool
deriving DecidableEq, Repr

/-- Number of `GameOverEvent`s sent to the queue by one `snake_movement`
invocation (each executed `send` contributes one event). -/
def gameOverEventsSent (mv : MoveResult) : Nat :=
  mv.boundaryHit.toNat + mv.selfHit.toNat

/-- From `fn snake_movement` (lines 173-230).  `timerFinished` is
`snake_timer.0.finished`; when false the system returns at once.  Otherwise:
commit the intended direction unless it reverses, record the pre-move head
position, displace the head, boundary-check it, self-collision-check the
pre-move head position against all current segment positions, then shift
segment positions as a rigid chain (`insert(0, last_head_pos)` then zip with
the segment list) and record the vacated tail in `LastTailPosition`. -/
def snake_movement (timerFinished : Bool) (head : SnakeHead) (headPos : Position)
    (segments : List (Nat × Position)) (lastTail : Option Position) : MoveResult :=
  match timerFinished with
  | false =>
    { head := head, headPos := headPos, segments := segments,
      lastTail := lastTail, boundaryHit := false, selfHit := false }
  | true =>
    let dir := head.try_direction
    let head1 := if dir ≠ head.direction.opposite then { head with direction := dir } else head
    let last_head_pos := headPos
    let new_head_pos := applyDirection head1.direction headPos
    let segment_positions := segments.map Prod.snd
    let new_positions := last_head_pos :: segment_positions
    { head := head1,
      headPos := new_head_pos,
      segments := List.zipWith (fun s q => (s.1, q)) segments new_positions,
      lastTail := some (new_positions.getLast (List.cons_ne_nil _ _)),
      boundaryHit := outsideArena new_head_pos,
      selfHit := segment_positions.contains last_head_pos }

/-- From `fn handle_movement` (lines 149-171).  `pressed d` stands for the
already-decoded "direction d is pressed" signal (the keyboard merges two
physical keys per direction; key decoding is an external collaborator).
Priority order Left, Down, Up, Right, each excluded when equal to the
current movement direction; otherwise the intent is left unchanged. -/
def handle_movement (pressed : Direction → Bool) (head : SnakeHead) : SnakeHead :=
  { head with try_direction :=
      if head.direction ≠ Direction.Left ∧ pressed Direction.Left = true then
        Direction.Left
      else if head.direction ≠ Direction.Down ∧ pressed Direction.Down = true then
        Direction.Down
      else if head.direction ≠ Direction.Up ∧ pressed Direction.Up = true then
        Direction.Up
      else if head.direction ≠ Direction.Right ∧ pressed Direction.Right = true then
        Direction.Right
      else
        head.try_direction }

/-- From `fn snake_eating` (lines 257-275): gated on the same tick flag as
movement; every food entity whose position equals the head position is
despawned and one `GrowthEvent` is sent per match.  Returns the remaining
food positions and the number of `GrowthEvent`s sent. -/
def snake_eating (timerFinished : Bool) (headPos : Position)
    (foods : List Position) : List Position × Nat :=
  match timerFinished with
  | false => (foods, 0)
  | true => (foods.filter (fun p => decide (p ≠ headPos)), foods.count headPos)

/-- From `fn snake_growth` (lines 277-292): on observing at least one
`GrowthEvent` this cycle (`growth_reader.iter(..).next().is_some()`), spawn
one segment at `last_tail_position.0.unwrap()` and push its entity onto the
end of `SnakeSegments`.  The `unwrap` of a `None` last-tail is a panic,
embedded as `none`. -/
def snake_growth (growth_events : Nat) (lastTail : Option Position)
    (segments : List (Nat × Position)) (nextId : Nat) :
    Option (List (Nat × Position) × Nat) :=
  if 0 < growth_events then
    match lastTail with
    | none => none
    | some p => some (segments ++ [(nextId, p)], nextId + 1)
  else some (segments, nextId)

/-- From `fn food_spawner` (lines 318-340): one spawn block guarded by
`timer.0.finished || growth_reader.iter(..).next().is_some()`; `randPos`
is the random grid cell chosen for the new food. -/
def food_spawner (timerFinished : Bool) (growth_events : Nat)
    (randPos : Position) (foods : List Position) : List Position :=
  if timerFinished = true ∨ 0 < growth_events then foods ++ [randPos]
  else foods

/-- The whole mutable simulation state touched by the core systems: the
single head (`SnakeHead` plus its `Position` component), the segment-order
list `SnakeSegments` paired with each segment's `Position` component, the
live food positions, `LastTailPosition`, and a fresh-entity counter. -/
structure World where
  head : SnakeHead
  headPos : Position
  segments : List (Nat × Position)
  foods : List Position
  lastTail : Option Position
  nextId : Nat
deriving DecidableEq, Repr

/-- From `fn spawn_initial_snake` (lines 108-131): one segment at (3,2)
becomes the whole segment list, and a head at (3,3) is spawned with both
direction fields `Direction::Up`. -/
def spawn_initial_snake (w : World) : World :=
  { w with
    segments := [(w.nextId, { x := 3, y := 2 })],
    head := { direction := Direction.Up, try_direction := Direction.Up },
    headPos := { x := 3, y := 3 },
    nextId := w.nextId + 1 }

/-- From `fn game_over` (lines 233-255): on observing at least one
`GameOverEvent` this cycle, despawn every segment, every food and every
head, then `spawn_initial_snake`. -/
def game_over (game_over_events : Nat) (w : World) : World :=
  if 0 < game_over_events then
    spawn_initial_snake { w with segments := [], foods := [] }
  else w

/-- Per-cycle external inputs: the decoded pressed-direction predicate, the
movement tick flag, the food-spawn timer flag, and the random cell the food
spawner would use. -/
structure CycleInput where
  pressed : Direction → Bool
  tick : Bool
  foodTimer : Bool
  foodRand : Position

/-- One update cycle in the documented order: input latch, movement,
eating, growth, food spawning, game-over reset.  Events sent in the cycle
are visible to the cycle's later consumers and are not re-delivered.
`none` embeds the `unwrap` panic of `snake_growth` on an unset
`LastTailPosition`. -/
def update_cycle (w : World) (inp : CycleInput) : Option World :=
  let head1 := handle_movement inp.pressed w.head
  let mv := snake_movement inp.tick head1 w.headPos w.segments w.lastTail
  let eaten := snake_eating inp.tick mv.headPos w.foods
  (snake_growth eaten.2 mv.lastTail mv.segments w.nextId).map (fun sn =>
    game_over (gameOverEventsSent mv)
      { head := mv.head,
        headPos := mv.headPos,
        segments := sn.1,
        foods := food_spawner inp.foodTimer eaten.2 inp.foodRand eaten.1,
        lastTail := mv.lastTail,
        nextId := sn.2 })

/-- From `fn game_setup` (lines 93-106): one food at a random cell, then the
initial snake; entity numbering starts at zero. -/
def initialWorld (foodPos : Position) : World :=
  spawn_initial_snake
    { head := { direction := Direction.Up, try_direction := Direction.Up },
      headPos := { x := 0, y := 0 },
      segments := [],
      foods := [foodPos],
      lastTail := none,
      nextId := 0 }

/-- States reachable from the initial configuration by whole update
cycles. -/
inductive Reachable : World → Prop where
  | init : ∀ foodPos, Reachable (initialWorld foodPos)
  | step : ∀ w inp w2, Reachable w → update_cycle w inp = some w2 → Reachable w2

/-- Whether a list of direction inputs never asks for the opposite of the
direction committed at the previous step (spec wording: a sequence of
non-reversing direction inputs). -/
def nonReversing : Direction → List Direction → Bool
  | _, [] => true
  | c, d :: ds => decide (d ≠ c.opposite) && nonReversing d ds

/-- The movement engine iterated over a list of elapsed ticks, the input
latched to the given direction before each tick. -/
def moveRun (h : SnakeHead) (p : Position) (segs : List (Nat × Position))
    (lt : Option Position) : List Direction → SnakeHead × Position
  | [] => (h, p)
  | d :: ds =>
    let mv := snake_movement true { h with try_direction := d } p segs lt
    moveRun mv.head mv.headPos mv.segments mv.lastTail ds

lemma applyDirection_eq (d : Direction) (p : Position) :
    applyDirection d p = { x := p.x + dirDX d, y := p.y + dirDY d } := by
  cases d <;> simp [applyDirection, dirDX, dirDY] <;> omega

lemma snake_movement_skip (h : SnakeHead) (p : Position)
    (segs : List (Nat × Position)) (lt : Option Position) :
    snake_movement false h p segs lt
      = { head := h, headPos := p, segments := segs, lastTail := lt,
          boundaryHit := false, selfHit := false } := rfl

lemma snake_movement_head (h : SnakeHead) (p : Position)
    (segs : List (Nat × Position)) (lt : Option Position) :
    (snake_movement true h p segs lt).head
      = { h with direction := committedDirection h } := by
  simp only [snake_movement, committedDirection]
  split <;> rfl

lemma snake_movement_headPos (h : SnakeHead) (p : Position)
    (segs : List (Nat × Position)) (lt : Option Position) :
    (snake_movement true h p segs lt).headPos
      = applyDirection (committedDirection h) p := by
  simp only [snake_movement, committedDirection]
  split <;> rfl

lemma snake_movement_segments (h : SnakeHead) (p : Position)
    (segs : List (Nat × Position)) (lt : Option Position) :
    (snake_movement true h p segs lt).segments
      = List.zipWith (fun s q => (s.1, q)) segs (p :: segs.map Prod.snd) := rfl

lemma snake_movement_lastTail (h : SnakeHead) (p : Position)
    (segs : List (Nat × Position)) (lt : Option Position) :
    (snake_movement true h p segs lt).lastTail
      = some ((p :: segs.map Prod.snd).getLast (List.cons_ne_nil _ _)) := rfl

lemma snake_movement_boundaryHit (h : SnakeHead) (p : Position)
    (segs : List (Nat × Position)) (lt : Option Position) :
    (snake_movement true h p segs lt).boundaryHit
      = outsideArena (applyDirection (committedDirection h) p) := by
  simp only [snake_movement, committedDirection]
  split <;> rfl

lemma snake_movement_selfHit (h : SnakeHead) (p : Position)
    (segs : List (Nat × Position)) (lt : Option Position) :
    (snake_movement true h p segs lt).selfHit
      = (segs.map Prod.snd).contains p := rfl

lemma snake_movement_selfHit_iff (h : SnakeHead) (p : Position)
    (segs : List (Nat × Position)) (lt : Option Position) :
    (snake_movement true h p segs lt).selfHit = true ↔ p ∈ segs.map Prod.snd := by
  rw [snake_movement_selfHit]
  exact List.elem_iff

lemma map_snd_zipWith_shift (segs : List (Nat × Position)) (p : Position) :
    (List.zipWith (fun s q => (s.1, q)) segs (p :: segs.map Prod.snd)).map Prod.snd
      = (p :: segs.map Prod.snd).dropLast := by
  induction segs generalizing p with
  | nil => simp
  | cons a t ih => simp [List.dropLast, ih a.2]

lemma map_fst_zipWith_shift (segs : List (Nat × Position)) (p : Position) :
    (List.zipWith (fun s q => (s.1, q)) segs (p :: segs.map Prod.snd)).map Prod.fst
      = segs.map Prod.fst := by
  induction segs generalizing p with
  | nil => simp
  | cons a t ih => simp [ih a.2]

lemma snake_movement_map_snd (h : SnakeHead) (p : Position)
    (segs : List (Nat × Position)) (lt : Option Position) :
    (snake_movement true h p segs lt).segments.map Prod.snd
      = (p :: segs.map Prod.snd).dropLast := by
  rw [snake_movement_segments, map_snd_zipWith_shift]

/-- C1 counterexample: with the food-spawn timer elapsed and one
GrowthEvent present in the same cycle, one invocation of `food_spawner`
on an empty food store creates one food entity, not two. -/
theorem food_spawner_both_triggers_counterexample :
    (food_spawner true 1 { x := 5, y := 5 } []).length = 1 ∧
      ¬ (food_spawner true 1 { x := 5, y := 5 } []).length = 2 := by
  decide

/-- C1 (amended): one `food_spawner` invocation spawns exactly one food
entity whenever at least one of the two triggers (elapsed food timer,
GrowthEvent this cycle) fires — the two triggers share a single guarded
spawn — and none when neither fires. -/
theorem food_spawner_spawn_count (tf : Bool) (g : Nat) (r : Position)
    (foods : List Position) :
    (food_spawner tf g r foods).length
      = foods.length + (if tf = true ∨ 0 < g then 1 else 0) := by
  unfold food_spawner
  split <;> simp

/-- C4: on an elapsed tick the intended direction is committed unless it is
the opposite of the current direction, in which case the current direction
is kept unchanged; in particular intending Down while moving Up leaves the
direction Up. -/
theorem snake_movement_reversal_ignored (h : SnakeHead) (p : Position)
    (segs : List (Nat × Position)) (lt : Option Position) :
    ((h.try_direction = h.direction.opposite →
        (snake_movement true h p segs lt).head.direction = h.direction) ∧
      (h.try_direction ≠ h.direction.opposite →
        (snake_movement true h p segs lt).head.direction = h.try_direction)) ∧
      (snake_movement true
          { direction := Direction.Up, try_direction := Direction.Down }
          p segs lt).head.direction = Direction.Up := by
  refine ⟨⟨?_, ?_⟩, ?_⟩
  · intro heq
    rw [snake_movement_head]
    simp [committedDirection, heq]
  · intro hne
    rw [snake_movement_head]
    simp [committedDirection, hne]
  · rw [snake_movement_head]
    simp [committedDirection, Direction.opposite]

/-- C4 witness: the reversal-rejection branch evaluated at a concrete head
moving Up with intended direction Down. -/
theorem snake_movement_reversal_ignored_witness :
    (snake_movement true
      { direction := Direction.Up, try_direction := Direction.Down }
      { x := 3, y := 3 } [] none).head.direction = Direction.Up :=
  (snake_movement_reversal_ignored
    { direction := Direction.Up, try_direction := Direction.Down }
    { x := 3, y := 3 } [] none).1.1 (by decide)

/-- C5: on an elapsed tick the boundary check sends a GameOverEvent exactly
when the displaced head position leaves [0, ARENA_WIDTH) × [0, ARENA_HEIGHT);
movement still completes positionally (the head keeps the out-of-bounds
position and the segments still shift); a head at (0, y) moving Left trips
the boundary check for every y. -/
theorem snake_movement_boundary_check (h : SnakeHead) (p : Position)
    (segs : List (Nat × Position)) (lt : Option Position) :
    ((snake_movement true h p segs lt).boundaryHit = true ↔
        ((snake_movement true h p segs lt).headPos.x < 0 ∨
          (snake_movement true h p segs lt).headPos.y < 0 ∨
          ARENA_WIDTH ≤ (snake_movement true h p segs lt).headPos.x ∨
          ARENA_HEIGHT ≤ (snake_movement true h p segs lt).headPos.y)) ∧
      (snake_movement true h p segs lt).headPos
        = applyDirection (committedDirection h) p ∧
      (snake_movement true h p segs lt).segments.map Prod.snd
        = (p :: segs.map Prod.snd).dropLast ∧
      ∀ y : Int,
        (snake_movement true
          { direction := Direction.Left, try_direction := Direction.Left }
          { x := 0, y := y } segs lt).boundaryHit = true := by
  refine ⟨?_, snake_movement_headPos h p segs lt, snake_movement_map_snd h p segs lt, ?_⟩
  · rw [snake_movement_boundaryHit, snake_movement_headPos]
    simp [outsideArena, or_assoc]
  · intro y
    rw [snake_movement_boundaryHit]
    simp [committedDirection, Direction.opposite, applyDirection, outsideArena]

/-- C5 witness: the boundary-collision part evaluated at a head on the left
wall moving Left. -/
theorem snake_movement_boundary_check_witness :
    (snake_movement true
      { direction := Direction.Left, try_direction := Direction.Left }
      { x := 0, y := 7 } [] none).boundaryHit = true :=
  (snake_movement_boundary_check
    { direction := Direction.Up, try_direction := Direction.Up }
    { x := 3, y := 3 } [] none).2.2.2 7

/-- C6: on an elapsed tick, the self-collision check sends exactly one
GameOverEvent when the pre-move head position matches at least one current
segment position — however many segments match — and none when no segment
matches. -/
theorem snake_movement_self_collision_once (h : SnakeHead) (p : Position)
    (segs : List (Nat × Position)) (lt : Option Position) :
    (1 ≤ (segs.map Prod.snd).count p →
        (snake_movement true h p segs lt).selfHit.toNat = 1) ∧
      ((segs.map Prod.snd).count p = 0 →
        (snake_movement true h p segs lt).selfHit.toNat = 0) := by
  constructor
  · intro hc
    have hm : p ∈ segs.map Prod.snd := List.count_pos_iff.mp (by omega)
    have hs := (snake_movement_selfHit_iff h p segs lt).mpr hm
    simp [hs]
  · intro hc
    have hm : p ∉ segs.map Prod.snd := by
      intro hmem
      have := List.count_pos_iff.mpr hmem
      omega
    cases hb : (snake_movement true h p segs lt).selfHit with
    | false => rfl
    | true => exact absurd ((snake_movement_selfHit_iff h p segs lt).mp hb) hm

/-- C6 witness: two segments sit on the pre-move head position and the
check still sends a single event; with no matching segment it sends none. -/
theorem snake_movement_self_collision_once_witness :
    (snake_movement true { direction := Direction.Up, try_direction := Direction.Up }
      { x := 3, y := 2 }
      [(0, { x := 3, y := 2 }), (1, { x := 3, y := 2 })] none).selfHit.toNat = 1 :=
  (snake_movement_self_collision_once
    { direction := Direction.Up, try_direction := Direction.Up }
    { x := 3, y := 2 }
    [(0, { x := 3, y := 2 }), (1, { x := 3, y := 2 })] none).1 (by decide)

/-- C7: when at least one GrowthEvent is present, `snake_growth` spawns
exactly one segment at the recorded LastTailPosition, appending its entity
at the end of the segment-order list and growing the list by exactly one;
with no GrowthEvent present nothing is added. -/
theorem snake_growth_appends_segment (n : Nat) (tp : Position)
    (lt : Option Position) (segs : List (Nat × Position)) (nid : Nat)
    (hn : 1 ≤ n) :
    snake_growth n (some tp) segs nid = some (segs ++ [(nid, tp)], nid + 1) ∧
      (segs ++ [(nid, tp)]).map Prod.snd = segs.map Prod.snd ++ [tp] ∧
      (segs ++ [(nid, tp)]).map Prod.fst = segs.map Prod.fst ++ [nid] ∧
      (segs ++ [(nid, tp)]).length = segs.length + 1 ∧
      snake_growth 0 lt segs nid = some (segs, nid) := by
  refine ⟨?_, by simp, by simp, by simp, rfl⟩
  unfold snake_growth
  rw [if_pos (by omega)]

/-- C7 witness: one GrowthEvent appends one segment at the last tail
position to a one-segment snake. -/
theorem snake_growth_appends_segment_witness :
    snake_growth 1 (some { x := 3, y := 2 }) [(0, { x := 3, y := 3 })] 1
      = some ([(0, { x := 3, y := 3 }), (1, { x := 3, y := 2 })], 2) :=
  (snake_growth_appends_segment 1 { x := 3, y := 2 } none
    [(0, { x := 3, y := 3 })] 1 (by decide)).1

/-- C8: on observing a GameOverEvent, the handler despawns everything and
reinitializes: one segment at (3,2) forming the whole segment list, no food,
and one head at (3,3) with both direction fields Up — for every pre-event
state. -/
theorem game_over_reset (n : Nat) (w : World) (hn : 1 ≤ n) :
    (game_over n w).segments = [(w.nextId, { x := 3, y := 2 })] ∧
      (game_over n w).segments.length = 1 ∧
      (game_over n w).foods = [] ∧
      (game_over n w).head
        = { direction := Direction.Up, try_direction := Direction.Up } ∧
      (game_over n w).headPos = { x := 3, y := 3 } := by
  unfold game_over
  rw [if_pos (by omega)]
  simp [spawn_initial_snake]

/-- C8 witness: the reset evaluated on a concrete three-entity world. -/
theorem game_over_reset_witness :
    (game_over 1
      { head := { direction := Direction.Left, try_direction := Direction.Down },
        headPos := { x := 9, y := 9 },
        segments := [(3, { x := 9, y := 8 }), (4, { x := 9, y := 7 })],
        foods := [{ x := 1, y := 1 }],
        lastTail := some { x := 9, y := 6 },
        nextId := 5 }).segments = [(5, { x := 3, y := 2 })] :=
  (game_over_reset 1
    { head := { direction := Direction.Left, try_direction := Direction.Down },
      headPos := { x := 9, y := 9 },
      segments := [(3, { x := 9, y := 8 }), (4, { x := 9, y := 7 })],
      foods := [{ x := 1, y := 1 }],
      lastTail := some { x := 9, y := 6 },
      nextId := 5 } (by decide)).1

/-- C10: `snake_movement` never changes the segment-order list itself —
for every input state (tick elapsed or not) the list of segment identifiers
keeps its length and element order. -/
theorem snake_movement_preserves_segment_list (t : Bool) (h : SnakeHead)
    (p : Position) (segs : List (Nat × Position)) (lt : Option Position) :
    (snake_movement t h p segs lt).segments.map Prod.fst = segs.map Prod.fst ∧
      (snake_movement t h p segs lt).segments.length = segs.length := by
  cases t with
  | false => simp [snake_movement_skip]
  | true =>
    constructor
    · rw [snake_movement_segments, map_fst_zipWith_shift]
    · rw [snake_movement_segments, List.length_zipWith]
      simp

lemma getD_cons_dropLast (p : Position) (olds : List Position) (j : Nat)
    (hne : olds ≠ []) (hj : j + 1 < olds.length) (d : Position) :
    ((p :: olds).dropLast).getD (j + 1) d = olds.getD j d := by
  obtain ⟨b, t, rfl⟩ : ∃ b t, olds = b :: t := by
    cases olds with
    | nil => exact absurd rfl hne
    | cons b t => exact ⟨b, t, rfl⟩
  rw [List.dropLast_cons₂, List.getD_cons_succ]
  have hj1 : j < ((b :: t).dropLast).length := by
    simp at hj ⊢
    omega
  have hj2 : j < (b :: t).length := by
    simp at hj ⊢
    omega
  rw [List.getD_eq_getElem?_getD, List.getD_eq_getElem?_getD,
    List.getElem?_eq_getElem hj1, List.getElem?_eq_getElem hj2]
  simp

/-- C2: on an elapsed tick, segment 0 takes the head's pre-move position,
segment i (i ≥ 1) takes segment i-1's pre-tick position, and
LastTailPosition records the last segment's pre-move position; in the
concrete scenario — head (3,3) moving Up, one segment at (3,2), no input —
the head ends at (3,4), the segment at (3,3), and LastTailPosition is
(3,2). -/
theorem snake_movement_body_follow_through (h : SnakeHead) (p : Position)
    (segs : List (Nat × Position)) (lt : Option Position) (hne : segs ≠ []) :
    ((snake_movement true h p segs lt).segments.map Prod.snd).getD 0
        { x := 0, y := 0 } = p ∧
      (∀ i, 1 ≤ i → i < segs.length →
        ((snake_movement true h p segs lt).segments.map Prod.snd).getD i
            { x := 0, y := 0 }
          = (segs.map Prod.snd).getD (i - 1) { x := 0, y := 0 }) ∧
      (snake_movement true h p segs lt).lastTail
        = some ((segs.map Prod.snd).getLast (by simpa using hne)) ∧
      (snake_movement true
          (handle_movement (fun _ => false)
            { direction := Direction.Up, try_direction := Direction.Up })
          { x := 3, y := 3 } [(0, { x := 3, y := 2 })] none).headPos
        = { x := 3, y := 4 } ∧
      (snake_movement true
          (handle_movement (fun _ => false)
            { direction := Direction.Up, try_direction := Direction.Up })
          { x := 3, y := 3 } [(0, { x := 3, y := 2 })] none).segments.map Prod.snd
        = [{ x := 3, y := 3 }] ∧
      (snake_movement true
          (handle_movement (fun _ => false)
            { direction := Direction.Up, try_direction := Direction.Up })
          { x := 3, y := 3 } [(0, { x := 3, y := 2 })] none).lastTail
        = some { x := 3, y := 2 } := by
  have holds : segs.map Prod.snd ≠ [] := by simpa using hne
  refine ⟨?_, ?_, ?_, by decide, by decide, by decide⟩
  · rw [snake_movement_map_snd]
    obtain ⟨b, t, rfl⟩ : ∃ b t, segs = b :: t := by
      cases segs with
      | nil => exact absurd rfl hne
      | cons b t => exact ⟨b, t, rfl⟩
    rw [List.map_cons, List.dropLast_cons₂, List.getD_cons_zero]
  · intro i hi1 hi2
    obtain ⟨j, rfl⟩ : ∃ j, i = j + 1 := ⟨i - 1, by omega⟩
    rw [snake_movement_map_snd]
    have hj : j + 1 < (segs.map Prod.snd).length := by
      simpa using hi2
    rw [getD_cons_dropLast p (segs.map Prod.snd) j holds hj]
    simp
  · rw [snake_movement_lastTail]
    congr 1
    exact List.getLast_cons holds

/-- C2 witness: the general body-follow-through facts evaluated on a
two-segment snake. -/
theorem snake_movement_body_follow_through_witness :
    ((snake_movement true { direction := Direction.Right, try_direction := Direction.Right }
        { x := 5, y := 5 }
        [(0, { x := 4, y := 5 }), (1, { x := 3, y := 5 })] none).segments.map
          Prod.snd).getD 1 { x := 0, y := 0 } = { x := 4, y := 5 } := by
  have h := (snake_movement_body_follow_through
    { direction := Direction.Right, try_direction := Direction.Right }
    { x := 5, y := 5 }
    [(0, { x := 4, y := 5 }), (1, { x := 3, y := 5 })] none
    (by decide)).2.1 1 (by decide) (by decide)
  simpa using h

lemma moveRun_headPos_sum (ds : List Direction) :
    ∀ (c : Direction) (h : SnakeHead) (p : Position)
      (segs : List (Nat × Position)) (lt : Option Position),
      h.direction = c → nonReversing c ds = true →
      (moveRun h p segs lt ds).2
        = { x := p.x + (ds.map dirDX).sum, y := p.y + (ds.map dirDY).sum } := by
  induction ds with
  | nil =>
    intro c h p segs lt hd hnr
    simp [moveRun]
  | cons d ds ih =>
    intro c h p segs lt hd hnr
    simp only [nonReversing, Bool.and_eq_true, decide_eq_true_eq] at hnr
    obtain ⟨hne, hnr2⟩ := hnr
    have hcommit : committedDirection { h with try_direction := d } = d := by
      simp [committedDirection, hd, hne]
    have hhead :
        (snake_movement true { h with try_direction := d } p segs lt).head.direction = d := by
      rw [snake_movement_head, hcommit]
    have hpos :
        (snake_movement true { h with try_direction := d } p segs lt).headPos
          = applyDirection d p := by
      rw [snake_movement_headPos, hcommit]
    simp only [moveRun]
    rw [ih d _ _ _ _ hhead hnr2, hpos, applyDirection_eq]
    simp [Position.mk.injEq]
    constructor <;> ring

/-- C3: on every elapsed tick the head moves one unit in the committed
direction, and iterating the movement engine from the initial configuration
(head (3,3), direction Up) over any non-reversing input sequence lands the
head at (3,3) plus the vector sum of the unit displacements. -/
theorem snake_movement_head_displacement :
    (∀ (h : SnakeHead) (p : Position) (segs : List (Nat × Position))
        (lt : Option Position),
        (snake_movement true h p segs lt).headPos
          = applyDirection ((snake_movement true h p segs lt).head.direction) p) ∧
      (∀ (d : Direction) (p : Position),
        applyDirection d p = { x := p.x + dirDX d, y := p.y + dirDY d }) ∧
      ∀ ds : List Direction, nonReversing Direction.Up ds = true →
        (moveRun { direction := Direction.Up, try_direction := Direction.Up }
            { x := 3, y := 3 } [(0, { x := 3, y := 2 })] none ds).2
          = { x := 3 + (ds.map dirDX).sum, y := 3 + (ds.map dirDY).sum } := by
  refine ⟨?_, applyDirection_eq, ?_⟩
  · intro h p segs lt
    rw [snake_movement_headPos, snake_movement_head]
  · intro ds hnr
    exact moveRun_headPos_sum ds Direction.Up _ _ _ _ rfl hnr

/-- C3 witness: two ticks with inputs Up then Left move the head from
(3,3) to (2,4). -/
theorem snake_movement_head_displacement_witness :
    (moveRun { direction := Direction.Up, try_direction := Direction.Up }
      { x := 3, y := 3 } [(0, { x := 3, y := 2 })] none
      [Direction.Up, Direction.Left]).2 = { x := 2, y := 4 } := by
  have h := snake_movement_head_displacement.2.2
    [Direction.Up, Direction.Left] (by decide)
  rw [h]
  decide

lemma snake_eating_skip (hp : Position) (foods : List Position) :
    snake_eating false hp foods = (foods, 0) := rfl

lemma snake_growth_zero (lt : Option Position) (segs : List (Nat × Position))
    (nid : Nat) : snake_growth 0 lt segs nid = some (segs, nid) := rfl

lemma snake_growth_pos (n : Nat) (hn : 0 < n) (p : Position)
    (segs : List (Nat × Position)) (nid : Nat) :
    snake_growth n (some p) segs nid = some (segs ++ [(nid, p)], nid + 1) := by
  unfold snake_growth
  rw [if_pos hn]

lemma game_over_zero (w : World) : game_over 0 w = w := rfl

lemma game_over_pos (n : Nat) (hn : 0 < n) (w : World) :
    game_over n w = spawn_initial_snake { w with segments := [], foods := [] } := by
  unfold game_over
  rw [if_pos hn]

lemma update_cycle_no_tick (w : World) (inp : CycleInput) (h : inp.tick = false) :
    update_cycle w inp
      = some { w with
          head := handle_movement inp.pressed w.head,
          foods := food_spawner inp.foodTimer 0 inp.foodRand w.foods } := by
  simp only [update_cycle, h]
  rfl

lemma update_cycle_preserves_nodup (w w2 : World) (inp : CycleInput)
    (hw : (w.segments.map Prod.snd).Nodup)
    (hstep : update_cycle w inp = some w2) :
    (w2.segments.map Prod.snd).Nodup := by
  cases htick : inp.tick with
  | false =>
    rw [update_cycle_no_tick w inp htick] at hstep
    obtain rfl := Option.some.inj hstep
    simpa using hw
  | true =>
    simp only [update_cycle, htick] at hstep
    set head1 := handle_movement inp.pressed w.head with hh1
    set mv := snake_movement true head1 w.headPos w.segments w.lastTail with hmv
    set n := (snake_eating true mv.headPos w.foods).2 with hn
    have hlt : mv.lastTail
        = some ((w.headPos :: w.segments.map Prod.snd).getLast
            (List.cons_ne_nil _ _)) := by
      rw [hmv, snake_movement_lastTail]
    have hsegs : mv.segments.map Prod.snd
        = (w.headPos :: w.segments.map Prod.snd).dropLast := by
      rw [hmv, snake_movement_map_snd]
    -- the two possible post-growth segment lists
    have hgrow : ∃ segs2 nid2,
        snake_growth n mv.lastTail mv.segments w.nextId = some (segs2, nid2) ∧
          (segs2 = mv.segments ∨
            segs2 = mv.segments
              ++ [(w.nextId, (w.headPos :: w.segments.map Prod.snd).getLast
                    (List.cons_ne_nil _ _))]) := by
      cases hcase : n with
      | zero =>
        exact ⟨mv.segments, w.nextId, snake_growth_zero _ _ _, Or.inl rfl⟩
      | succ m =>
        refine ⟨mv.segments
            ++ [(w.nextId, (w.headPos :: w.segments.map Prod.snd).getLast
                  (List.cons_ne_nil _ _))],
          w.nextId + 1, ?_, Or.inr rfl⟩
        rw [hlt]
        exact snake_growth_pos _ (by omega) _ _ _
    obtain ⟨segs2, nid2, hg, hsegs2⟩ := hgrow
    rw [hg] at hstep
    simp only [Option.map_some'] at hstep
    obtain rfl := Option.some.inj hstep
    cases hK : gameOverEventsSent mv with
    | succ k =>
      rw [game_over_pos _ (by omega)]
      simp [spawn_initial_snake]
    | zero =>
      rw [game_over_zero]
      have hself : mv.selfHit = false := by
        have : mv.boundaryHit.toNat + mv.selfHit.toNat = 0 := hK
        cases hb : mv.selfHit with
        | false => rfl
        | true => rw [hb] at this; simp at this
      have hmem : w.headPos ∉ w.segments.map Prod.snd := by
        intro hmemb
        have := (snake_movement_selfHit_iff head1 w.headPos w.segments w.lastTail).mpr hmemb
        rw [← hmv] at this
        rw [hself] at this
        exact Bool.false_ne_true this
      have hnodup_np : (w.headPos :: w.segments.map Prod.snd).Nodup :=
        List.nodup_cons.mpr ⟨hmem, hw⟩
      rcases hsegs2 with rfl | rfl
      · rw [hsegs]
        exact hnodup_np.sublist (List.dropLast_sublist _)
      · rw [List.map_append, hsegs]
        have hres : (w.headPos :: w.segments.map Prod.snd).dropLast
              ++ [(w.headPos :: w.segments.map Prod.snd).getLast
                    (List.cons_ne_nil _ _)]
            = w.headPos :: w.segments.map Prod.snd :=
          List.dropLast_concat_getLast _
        simpa [hres] using hnodup_np

/-- C9: in every state reachable from the initial configuration by whole
update cycles (movement, eating, growth, food spawning, reset, in the
documented order), the live segment positions are pairwise distinct. -/
theorem reachable_segment_positions_nodup (w : World) (hw : Reachable w) :
    (w.segments.map Prod.snd).Nodup := by
  induction hw with
  | init foodPos => simp [initialWorld, spawn_initial_snake]
  | step v inp v2 _ hcycle ih => exact update_cycle_preserves_nodup v v2 inp ih hcycle

/-- C9 witness: the invariant evaluated at the initial configuration. -/
theorem reachable_segment_positions_nodup_witness :
    ((initialWorld { x := 5, y := 5 }).segments.map Prod.snd).Nodup :=
  reachable_segment_positions_nodup (initialWorld { x := 5, y := 5 })
    (Reachable.init { x := 5, y := 5 })
